import Mathlib

/-!
Shallow embedding of the compliance dashboard `legal_app.py`:
the status classifier `get_status`, the spreadsheet import loop,
the AI audit handler, and the (spec-described) column mapper,
together with theorems settling the specification's claims.
-/

set_option maxHeartbeats 1000000

namespace LegalApp

/-- The four traffic-light statuses returned by `get_status`. -/
inductive Status where
  | SAFE
  | WARNING
  | EXPIRED
  | MISSING
  deriving DecidableEq, Repr

/-- A calendar date (year, month, day), the result of a successful date parse. -/
structure Date where
  year : Nat
  month : Nat
  day : Nat
  deriving DecidableEq, Repr

/-- Gregorian leap-year test. -/
def isLeap (y : Nat) : Bool :=
  (y % 4 == 0 && y % 100 != 0) || y % 400 == 0

/-- Number of days in month `m` of year `y` (months are 1..12). -/
def daysInMonth (y m : Nat) : Nat :=
  if m = 2 then (if isLeap y then 29 else 28)
  else if m = 4 ∨ m = 6 ∨ m = 9 ∨ m = 11 then 30
  else 31

/-- Days in year `y` that precede the first day of month `m`. -/
def daysBeforeMonth (y m : Nat) : Nat :=
  (List.range (m - 1)).foldl (fun acc i => acc + daysInMonth y (i + 1)) 0

/-- Proleptic-Gregorian day number of a date (day 0 = 0001-01-01); this plays
the role of the subtraction `(d - datetime.date.today()).days` in the source:
the difference of two day numbers is the number of days between the dates. -/
def toDayNumber (d : Date) : Nat :=
  365 * (d.year - 1) + (d.year - 1) / 4 - (d.year - 1) / 100 + (d.year - 1) / 400
    + daysBeforeMonth d.year d.month + (d.day - 1)

/-- Value of a decimal digit character, if it is one. -/
def digitVal (c : Char) : Option Nat :=
  if c.isDigit then some (c.toNat - 48) else none

/-- Parse a list of characters as an unsigned decimal numeral. -/
def parseNat (cs : List Char) : Option Nat :=
  cs.foldl
    (fun acc c =>
      match acc, digitVal c with
      | some n, some k => some (n * 10 + k)
      | _, _ => none)
    (some 0)

/-- Model of `pd.to_datetime` on the ISO strings this application produces and
stores (`YYYY-MM-DD`): succeeds exactly on ten-character strings with hyphens
at positions 4 and 7, digits elsewhere, and an in-range month and day. -/
def parseDate (s : String) : Option Date :=
  match s.toList with
  | [y1, y2, y3, y4, h1, m1, m2, h2, d1, d2] =>
    if h1 = '-' ∧ h2 = '-' then
      match parseNat [y1, y2, y3, y4], parseNat [m1, m2], parseNat [d1, d2] with
      | some y, some m, some d =>
        if 1 ≤ m ∧ m ≤ 12 ∧ 1 ≤ d ∧ d ≤ daysInMonth y m then some ⟨y, m, d⟩
        else none
      | _, _, _ => none
    else none
  | _ => none

/-- Embedding of `get_status(date_str, data_status, warning_days)` from
`legal_app.py`. `date_str` is `Option String` (`none` models Python `None`);
`today` makes the ambient `datetime.date.today()` explicit as a day number.
The `try/except` around parsing is modelled by `parseDate` returning `none`. -/
def get_status (date_str : Option String) (data_status : String)
    (warning_days : Int) (today : Int) : Status :=
  if data_status = "incomplete" ∨ date_str = none ∨ date_str = some "" ∨
      date_str = some "None" then
    Status.MISSING
  else
    match date_str with
    | none => Status.MISSING
    | some s =>
      match parseDate s with
      | none => Status.MISSING
      | some d =>
        let days_left : Int := (toDayNumber d : Int) - today
        if days_left < 0 then Status.EXPIRED
        else if days_left < warning_days then Status.WARNING
        else Status.SAFE

/-- Python's `str.strip()`: drop whitespace from both ends. (Defined by
structural recursion over the character list so that it evaluates inside
`decide`; `String.trim` of the standard library is extensionally the same.) -/
def strip (s : String) : String :=
  ⟨((s.toList.dropWhile Char.isWhitespace).reverse.dropWhile Char.isWhitespace).reverse⟩

/-- Python's `str.lower()` on the ASCII letters this application compares. -/
def lower (s : String) : String :=
  ⟨s.toList.map Char.toLower⟩

/-- One step list of `replaceFuel`: replace the leftmost, non-overlapping
occurrences of `need` (a nonempty pattern) by `repl`, with `fuel` bounding
the recursion depth so that the recursion is structural. -/
def replaceFuel (need repl : List Char) : Nat → List Char → List Char
  | 0, l => l
  | _ + 1, [] => []
  | fuel + 1, c :: rest =>
    if need.isPrefixOf (c :: rest) then
      repl ++ replaceFuel need repl fuel ((c :: rest).drop need.length)
    else
      c :: replaceFuel need repl fuel rest

/-- Python's `str.replace(need, repl)` for a nonempty pattern. -/
def replaceStr (s need repl : String) : String :=
  ⟨replaceFuel need.toList repl.toList s.toList.length s.toList⟩

/-- One spreadsheet row as the import loop sees it: the name and date cells
already rendered to strings by `str(...)`, plus the optional job-title and
contact cells. -/
structure Row where
  name : String
  date : String
  trade : Option String
  contact : Option String
  deriving DecidableEq, Repr

/-- The record the import loop inserts into the `subcontractors` table. -/
structure Payload where
  tenant_id : String
  name : String
  insurance_expiry_date : Option String
  trade : Option String
  phone : Option String
  data_status : String
  deriving DecidableEq, Repr

/-- Fallback tenant id from the source's configuration block. -/
def DEFAULT_TENANT_ID : String := "a8446e55-1a8c-477f-aed9-51998ab1e6cb"

/-- Zero-pad a numeral to two digits, as `strftime` does for month and day. -/
def pad2 (n : Nat) : String :=
  if n < 10 then "0" ++ toString n else toString n

/-- Zero-pad a numeral to four digits, as `strftime` does for the year. -/
def pad4 (n : Nat) : String :=
  if n < 10 then "000" ++ toString n
  else if n < 100 then "00" ++ toString n
  else if n < 1000 then "0" ++ toString n
  else toString n

/-- `strftime("%Y-%m-%d")` on a parsed date. -/
def dateFormat (d : Date) : String :=
  pad4 d.year ++ "-" ++ pad2 d.month ++ "-" ++ pad2 d.day

/-- The payload built for one accepted spreadsheet row: strip the name, parse
the stripped date cell with `errors="coerce"` (modelled by `parseDate`),
reformat a successful parse as `YYYY-MM-DD`, and mark `data_status`
`"verified"` exactly when the parse succeeded. -/
def mkPayload (r : Row) : Payload :=
  let nm := strip r.name
  let dt_val := strip r.date
  let db_dt : Option String := (parseDate dt_val).map dateFormat
  { tenant_id := DEFAULT_TENANT_ID
    name := nm
    insurance_expiry_date := db_dt
    trade := r.trade
    phone := r.contact
    data_status := if db_dt.isSome then "verified" else "incomplete" }

/-- The row-skipping test of the import loop: the stripped name is empty,
renders as `"nan"` case-insensitively, or is in the pre-existing name set. -/
def skipRow (exist : List String) (nm : String) : Prop :=
  nm = "" ∨ lower nm = "nan" ∨ nm ∈ exist

instance (exist : List String) (nm : String) : Decidable (skipRow exist nm) := by
  unfold skipRow; infer_instance

/-- The `Import Data Now` loop, with database writes reified as the returned
list: `exist` is the name set fetched once before the loop (and, as in the
source, never extended inside it); each non-skipped row contributes one
inserted payload, in row order. -/
def importLoop (exist : List String) : List Row → List Payload
  | [] => []
  | r :: rs =>
    if skipRow exist (strip r.name) then importLoop exist rs
    else mkPayload r :: importLoop exist rs

/-- The import loop with a fallible insert: `fail p` says the database write
of payload `p` raises. The loop body has no `try/except`, so the first raised
insert aborts the remaining iterations; the returned pair is the list of
payloads written before the failure and whether a failure occurred. -/
def import_run (fail : Payload → Bool) (exist : List String) :
    List Row → List Payload × Bool
  | [] => ([], false)
  | r :: rs =>
    if skipRow exist (strip r.name) then import_run fail exist rs
    else
      let p := mkPayload r
      if fail p then ([], true)
      else
        let rest := import_run fail exist rs
        (p :: rest.1, rest.2)

/-- Strip the model response and remove code fences and the word `json`,
exactly as `resp.text.strip().replace("\x60\x60\x60","").replace("json","")`. -/
def clean_resp (r : String) : String :=
  replaceStr (replaceStr (strip r) "\x60\x60\x60" "") "json" ""

/-- `ask_ai_to_read_date`, with the three model calls reified as a list of
outcomes: `none` models a call that raises (caught by the bare `except`),
`some r` a call that returns text `r`. The first successful call's cleaned
text is returned; if every call fails the function returns `"NOT_FOUND"`. -/
def ask_ai_to_read_date : List (Option String) → String
  | [] => "NOT_FOUND"
  | none :: rest => ask_ai_to_read_date rest
  | some r :: _ => clean_resp r

/-- The shape check guarding the AI audit update:
`len(found_date) == 10 and found_date[4] == '-'`. -/
def ai_date_ok (s : String) : Bool :=
  s.length == 10 && s.toList.getD 4 ' ' == '-'

/-- The `update` issued on the `subcontractors` row in the AI audit branch. -/
structure SubUpdate where
  insurance_expiry_date : Option String
  data_status : String
  deriving DecidableEq, Repr

/-- The observable side effects of one `Run AI Extraction` click. -/
structure AuditEffects where
  uploaded : Bool
  docInserted : Bool
  subUpdate : Option SubUpdate
  errorShown : Bool
  deriving DecidableEq, Repr

/-- The AI audit handler after the extraction returned `found_date`: the
certificate upload and the `documents` insert already happened
unconditionally; the `subcontractors` update runs exactly when the shape
check passes, storing the string verbatim with `data_status` `"verified"`,
and otherwise only an error message is shown. -/
def ai_audit_handler (found_date : String) : AuditEffects :=
  if ai_date_ok found_date then
    { uploaded := true
      docInserted := true
      subUpdate := some { insurance_expiry_date := some found_date, data_status := "verified" }
      errorShown := false }
  else
    { uploaded := true, docInserted := true, subUpdate := none, errorShown := true }

/-- Case-insensitive-target substring test, modelling Python's `kw in name`. -/
def strContains (hay need : String) : Bool :=
  (List.range (hay.toList.length + 1)).any
    (fun i => need.toList.isPrefixOf (hay.toList.drop i))

/-- Modelled from the spec: the column mapper of section 4.2 is not present in
`src/legal_app.py` (the import UI there uses plain dropdowns); per the spec it
returns the first column whose lowercased name contains any hint keyword, or
none if no column matches. -/
def map_column (columns : List String) (hints : List String) : Option String :=
  columns.find? (fun c => hints.any (fun h => strContains (lower c) h))

/-! ### Classifier theorems -/

theorem parseDate_empty : parseDate "" = none := rfl

theorem parseDate_none_string : parseDate "None" = none := rfl

/-- C1: for every date string that parses to a date `d` and completeness flag
`"verified"`, `get_status` with warning window `w` returns `EXPIRED` iff the
number of days from today to `d` is negative, `WARNING` iff that number is at
least `0` and strictly less than `w`, and `SAFE` iff it is at least `w`. -/
theorem get_status_verified_classification (s : String) (d : Date) (w today : Int)
    (hw : 0 ≤ w) (hp : parseDate s = some d) :
    (get_status (some s) "verified" w today = Status.EXPIRED ↔
      (toDayNumber d : Int) - today < 0) ∧
    (get_status (some s) "verified" w today = Status.WARNING ↔
      0 ≤ (toDayNumber d : Int) - today ∧ (toDayNumber d : Int) - today < w) ∧
    (get_status (some s) "verified" w today = Status.SAFE ↔
      w ≤ (toDayNumber d : Int) - today) := by
  have hne : s ≠ "" := by
    rintro rfl; rw [parseDate_empty] at hp; exact Option.noConfusion hp
  have hnn : s ≠ "None" := by
    rintro rfl; rw [parseDate_none_string] at hp; exact Option.noConfusion hp
  simp only [get_status, hp]
  rw [if_neg (by simp [hne, hnn])]
  split_ifs with h1 h2 <;> refine ⟨?_, ?_, ?_⟩ <;> simp <;> omega

/-- Witness for C1 at the spec's examples: today is 2025-06-01, the window is
30 days; "2024-01-01" is expired, a date 10 days out warns, 45 days out is
safe. -/
theorem get_status_verified_classification_witness :
    get_status (some "2024-01-01") "verified" 30
      ((toDayNumber ⟨2025, 6, 1⟩ : Nat) : Int) = Status.EXPIRED ∧
    get_status (some "2025-06-11") "verified" 30
      ((toDayNumber ⟨2025, 6, 1⟩ : Nat) : Int) = Status.WARNING ∧
    get_status (some "2025-07-16") "verified" 30
      ((toDayNumber ⟨2025, 6, 1⟩ : Nat) : Int) = Status.SAFE :=
  ⟨(get_status_verified_classification "2024-01-01" ⟨2024, 1, 1⟩ 30
      ((toDayNumber ⟨2025, 6, 1⟩ : Nat) : Int) (by decide) (by decide)).1.mpr (by decide),
   (get_status_verified_classification "2025-06-11" ⟨2025, 6, 11⟩ 30
      ((toDayNumber ⟨2025, 6, 1⟩ : Nat) : Int) (by decide) (by decide)).2.1.mpr (by decide),
   (get_status_verified_classification "2025-07-16" ⟨2025, 7, 16⟩ 30
      ((toDayNumber ⟨2025, 6, 1⟩ : Nat) : Int) (by decide) (by decide)).2.2.mpr (by decide)⟩

/-- C4: `get_status` is total (always returns one of the four statuses, never
raising), and it returns `MISSING` whenever the flag is `"incomplete"`, the
date is absent or empty, or the date fails to parse. -/
theorem get_status_missing_conditions (ds : Option String) (fl : String) (w t : Int) :
    (get_status ds fl w t = Status.SAFE ∨ get_status ds fl w t = Status.WARNING ∨
      get_status ds fl w t = Status.EXPIRED ∨ get_status ds fl w t = Status.MISSING) ∧
    (fl = "incomplete" → get_status ds fl w t = Status.MISSING) ∧
    (ds = none → get_status ds fl w t = Status.MISSING) ∧
    (ds = some "" → get_status ds fl w t = Status.MISSING) ∧
    (∀ s, ds = some s → parseDate s = none → get_status ds fl w t = Status.MISSING) := by
  refine ⟨?_, ?_, ?_, ?_, ?_⟩
  · cases hg : get_status ds fl w t <;> simp
  · intro h; simp [get_status, h]
  · intro h; simp [get_status, h]
  · intro h; simp [get_status, h]
  · rintro s rfl hp
    unfold get_status
    split
    · rfl
    · simp [hp]

/-- Witness for C4: an unparseable ten-character string is classified
`MISSING` even with a `"verified"` flag. -/
theorem get_status_missing_conditions_witness :
    get_status (some "not a date") "verified" 30 0 = Status.MISSING :=
  (get_status_missing_conditions (some "not a date") "verified" 30 0).2.2.2.2
    "not a date" rfl (by decide)

/-- C9: `get_status` returns `MISSING` for the literal string `"None"` (the
string rendering of a null value), regardless of the completeness flag and
the warning window. -/
theorem get_status_none_string_missing (fl : String) (w t : Int) :
    get_status (some "None") fl w t = Status.MISSING := by
  simp [get_status]

/-! ### AI audit theorems -/

theorem ai_date_ok_iff (s : String) :
    ai_date_ok s = true ↔ (s.length = 10 ∧ s.toList.getD 4 ' ' = '-') := by
  simp [ai_date_ok]

theorem ai_date_ok_false_of_not_shape (s : String)
    (h : ¬(s.length = 10 ∧ s.toList.getD 4 ' ' = '-')) : ai_date_ok s = false := by
  cases hb : ai_date_ok s with
  | false => rfl
  | true => exact absurd ((ai_date_ok_iff s).mp hb) h

/-- C5: the AI audit path updates the worker's expiry date and status exactly
when the returned string has length 10 and a hyphen at index 4; when it does,
the string is stored verbatim with status `"verified"` (no further
validation), and otherwise no update is issued. -/
theorem ai_audit_accepts_iff_shape (s : String) :
    ((ai_audit_handler s).subUpdate =
        some { insurance_expiry_date := some s, data_status := "verified" } ↔
      (s.length = 10 ∧ s.toList.getD 4 ' ' = '-')) ∧
    ((ai_audit_handler s).subUpdate =
        some { insurance_expiry_date := some s, data_status := "verified" } ∨
      (ai_audit_handler s).subUpdate = none) := by
  by_cases h : ai_date_ok s = true
  · have hs := (ai_date_ok_iff s).mp h
    rw [ai_audit_handler, if_pos h]
    exact ⟨⟨fun _ => hs, fun _ => rfl⟩, Or.inl rfl⟩
  · have hns : ¬(s.length = 10 ∧ s.toList.getD 4 ' ' = '-') :=
      fun hc => h ((ai_date_ok_iff s).mpr hc)
    rw [ai_audit_handler, if_neg h]
    exact ⟨⟨fun hEq => Option.noConfusion hEq, fun hc => absurd hc hns⟩, Or.inr rfl⟩

theorem ask_ai_all_none :
    ∀ rs : List (Option String), (∀ r ∈ rs, r = none) →
      ask_ai_to_read_date rs = "NOT_FOUND"
  | [], _ => rfl
  | none :: rest, h =>
    ask_ai_all_none rest (fun x hx => h x (List.mem_cons_of_mem _ hx))
  | some r :: _, h => absurd (h (some r) (List.mem_cons_self _ _)) (by simp)

/-- C6: the AI extraction never raises: when every model call fails,
`ask_ai_to_read_date` returns `"NOT_FOUND"`; and for any returned string that
is not date-shaped, the handler issues no worker update and only shows an
error message. -/
theorem ask_ai_soft_failure (rs : List (Option String)) (s : String)
    (hall : ∀ r ∈ rs, r = none)
    (hshape : ¬(s.length = 10 ∧ s.toList.getD 4 ' ' = '-')) :
    ask_ai_to_read_date rs = "NOT_FOUND" ∧
    (ai_audit_handler s).subUpdate = none ∧ (ai_audit_handler s).errorShown = true := by
  have hf := ai_date_ok_false_of_not_shape s hshape
  exact ⟨ask_ai_all_none rs hall, by simp [ai_audit_handler, hf],
    by simp [ai_audit_handler, hf]⟩

/-- Witness for C6: all three model calls fail, the fallback `"NOT_FOUND"` is
not date-shaped, and the handler updates nothing. -/
theorem ask_ai_soft_failure_witness :
    ask_ai_to_read_date [none, none, none] = "NOT_FOUND" ∧
    (ai_audit_handler "NOT_FOUND").subUpdate = none ∧
    (ai_audit_handler "NOT_FOUND").errorShown = true :=
  ask_ai_soft_failure [none, none, none] "NOT_FOUND" (by decide) (by decide)

/-- C10: even when the AI-returned string is not date-shaped, the side
effects performed before the extraction persist: the certificate was
uploaded and a documents row inserted; only the subcontractors record is
left unchanged. -/
theorem ai_audit_frame_effects (s : String)
    (h : ¬(s.length = 10 ∧ s.toList.getD 4 ' ' = '-')) :
    (ai_audit_handler s).uploaded = true ∧ (ai_audit_handler s).docInserted = true ∧
      (ai_audit_handler s).subUpdate = none := by
  have hf := ai_date_ok_false_of_not_shape s h
  simp [ai_audit_handler, hf]

/-- Witness for C10 at a length-10 string whose fifth character is not a
hyphen. -/
theorem ai_audit_frame_effects_witness :
    (ai_audit_handler "2025/01/01").uploaded = true ∧
    (ai_audit_handler "2025/01/01").docInserted = true ∧
    (ai_audit_handler "2025/01/01").subUpdate = none :=
  ai_audit_frame_effects "2025/01/01" (by decide)

/-! ### Import loop theorems -/

theorem mkPayload_name (r : Row) : (mkPayload r).name = strip r.name := rfl

theorem mkPayload_status_iff (r : Row) :
    (mkPayload r).data_status = "verified" ↔
      (parseDate (strip r.date)).isSome = true := by
  cases h : parseDate (strip r.date) with
  | none => simp [mkPayload, h]
  | some d => simp [mkPayload, h]

theorem importLoop_mem (exist : List String) (rows : List Row) (p : Payload)
    (hp : p ∈ importLoop exist rows) :
    ∃ r, r ∈ rows ∧ p = mkPayload r ∧ ¬ skipRow exist (strip r.name) := by
  induction rows with
  | nil => simp [importLoop] at hp
  | cons r rs ih =>
    rw [importLoop] at hp
    by_cases h : skipRow exist (strip r.name)
    · rw [if_pos h] at hp
      obtain ⟨r', hr', hpr', hsk⟩ := ih hp
      exact ⟨r', List.mem_cons_of_mem _ hr', hpr', hsk⟩
    · rw [if_neg h] at hp
      rcases List.mem_cons.mp hp with rfl | hp'
      · exact ⟨r, List.mem_cons_self _ _, rfl, h⟩
      · obtain ⟨r', hr', hpr', hsk⟩ := ih hp'
        exact ⟨r', List.mem_cons_of_mem _ hr', hpr', hsk⟩

/-- C2 counterexample: a spreadsheet that lists the same name twice yields
two inserted records with that name — the second occurrence is not skipped,
because the loop never extends the pre-fetched name set. -/
theorem import_duplicate_name_counterexample :
    ¬ ((importLoop [] [⟨"Bob", "2025-01-01", none, none⟩,
          ⟨"Bob", "2025-01-01", none, none⟩]).map Payload.name).Nodup := by
  decide

/-- C2 amended: every record inserted by the import loop has a stripped name
that is nonblank, does not render as `"nan"`, and was not among the tenant's
pre-existing names; duplicates within the same spreadsheet are, however, all
inserted, since the name set is not extended during the loop. -/
theorem import_skips_blank_nan_existing (exist : List String) (rows : List Row)
    (p : Payload) (hp : p ∈ importLoop exist rows) :
    p.name ∉ exist ∧ p.name ≠ "" ∧ lower p.name ≠ "nan" := by
  obtain ⟨r, _, rfl, hsk⟩ := importLoop_mem exist rows p hp
  rw [mkPayload_name]
  unfold skipRow at hsk
  push_neg at hsk
  exact ⟨hsk.2.2, hsk.1, hsk.2.1⟩

/-- Witness for C2's amended statement: with `"Old"` already recorded, a
two-row import of `"New"` and `"Old"` inserts only `"New"`, whose name is
nonblank, not `"nan"`, and not pre-existing. -/
theorem import_skips_blank_nan_existing_witness :
    (mkPayload ⟨"New", "2025-01-01", none, none⟩).name ∉ ["Old"] ∧
    (mkPayload ⟨"New", "2025-01-01", none, none⟩).name ≠ "" ∧
    lower (mkPayload ⟨"New", "2025-01-01", none, none⟩).name ≠ "nan" :=
  import_skips_blank_nan_existing ["Old"]
    [⟨"New", "2025-01-01", none, none⟩, ⟨"Old", "2025-01-01", none, none⟩]
    (mkPayload ⟨"New", "2025-01-01", none, none⟩) (by decide)

/-- C3 counterexample: the AI audit path stores `data_status` `"verified"`
together with the string `"9999-99-99"`, which is not a parseable date — the
claimed invariant fails on the AI audit path. -/
theorem ai_audit_verified_unparsed_counterexample :
    (ai_audit_handler "9999-99-99").subUpdate =
      some { insurance_expiry_date := some "9999-99-99", data_status := "verified" } ∧
    parseDate "9999-99-99" = none := by
  decide

/-- C3 amended: records written by the import loop carry `data_status`
`"verified"` exactly when the row's date cell parsed as a true date; the AI
audit path instead marks the worker `"verified"` whenever the returned string
merely passes the length-10/hyphen shape check. -/
theorem data_status_invariant_amended (exist : List String) (rows : List Row)
    (p : Payload) (hp : p ∈ importLoop exist rows) (s : String)
    (hs : s.length = 10 ∧ s.toList.getD 4 ' ' = '-') :
    (p.data_status = "verified" ↔
      ∃ r ∈ rows, p = mkPayload r ∧ (parseDate (strip r.date)).isSome = true) ∧
    (ai_audit_handler s).subUpdate =
      some { insurance_expiry_date := some s, data_status := "verified" } := by
  constructor
  · constructor
    · intro hv
      obtain ⟨r, hr, rfl, _⟩ := importLoop_mem exist rows p hp
      exact ⟨r, hr, rfl, (mkPayload_status_iff r).mp hv⟩
    · rintro ⟨r, _, rfl, hparse⟩
      exact (mkPayload_status_iff r).mpr hparse
  · rw [ai_audit_handler, if_pos ((ai_date_ok_iff s).mpr hs)]

/-- Witness for C3's amended statement: the row for `"Ann"` with date
`"2025-12-31"` imports as verified, and a shape-passing AI string updates the
worker to verified. -/
theorem data_status_invariant_amended_witness :
    ((mkPayload ⟨"Ann", "2025-12-31", none, none⟩).data_status = "verified" ↔
      ∃ r ∈ [(⟨"Ann", "2025-12-31", none, none⟩ : Row)],
        mkPayload ⟨"Ann", "2025-12-31", none, none⟩ = mkPayload r ∧
        (parseDate (strip r.date)).isSome = true) ∧
    (ai_audit_handler "2099-01-01").subUpdate =
      some { insurance_expiry_date := some "2099-01-01", data_status := "verified" } :=
  data_status_invariant_amended [] [⟨"Ann", "2025-12-31", none, none⟩]
    (mkPayload ⟨"Ann", "2025-12-31", none, none⟩) (by decide) "2099-01-01" (by decide)

theorem takeWhile_append_stop {α : Type} (f : α → Bool) (p : α) (hfp : f p = false) :
    ∀ (pre post : List α), (∀ q ∈ pre, f q = true) →
      (pre ++ p :: post).takeWhile f = pre
  | [], post, _ => by simp [List.takeWhile_cons, hfp]
  | a :: t, post, h => by
    have ha : f a = true := h a (List.mem_cons_self _ _)
    simp only [List.cons_append, List.takeWhile_cons, ha, if_true]
    rw [takeWhile_append_stop f p hfp t post
      (fun q hq => h q (List.mem_cons_of_mem _ hq))]

theorem import_run_eq (fail : Payload → Bool) (exist : List String) :
    ∀ rows : List Row,
      import_run fail exist rows =
        ((importLoop exist rows).takeWhile (fun p => !fail p),
          (importLoop exist rows).any fail)
  | [] => rfl
  | r :: rs => by
    by_cases h : skipRow exist (strip r.name)
    · rw [import_run, importLoop, if_pos h, if_pos h]
      exact import_run_eq fail exist rs
    · rw [import_run, importLoop, if_neg h, if_neg h]
      cases hf : fail (mkPayload r) with
      | true => simp [List.takeWhile_cons, hf]
      | false => simp [List.takeWhile_cons, hf, import_run_eq fail exist rs]

/-- C7: the import loop has no per-row exception handling: if the database
insert raises on some accepted row, the rows written before it remain written
(no rollback) and no later row is processed — the run returns exactly the
payloads accepted before the failing one, with the failure flag set. -/
theorem import_abort_on_insert_failure (fail : Payload → Bool) (exist : List String)
    (rows : List Row) (pre post : List Payload) (p : Payload)
    (hsplit : importLoop exist rows = pre ++ p :: post)
    (hpre : ∀ q ∈ pre, fail q = false) (hfp : fail p = true) :
    import_run fail exist rows = (pre, true) := by
  rw [import_run_eq, hsplit]
  rw [takeWhile_append_stop (fun q => !fail q) p (by simp [hfp]) pre post
    (fun q hq => by simp [hpre q hq])]
  simp [List.any_append, hfp]

/-- Witness for C7: inserting `"Bad"` fails, so only `"Ok1"` is written and
`"Later"` is never processed. -/
theorem import_abort_on_insert_failure_witness :
    import_run (fun p => p.name == "Bad") []
      [⟨"Ok1", "2025-01-01", none, none⟩, ⟨"Bad", "2025-01-01", none, none⟩,
       ⟨"Later", "2025-01-01", none, none⟩]
    = ([mkPayload ⟨"Ok1", "2025-01-01", none, none⟩], true) :=
  import_abort_on_insert_failure (fun p => p.name == "Bad") []
    [⟨"Ok1", "2025-01-01", none, none⟩, ⟨"Bad", "2025-01-01", none, none⟩,
     ⟨"Later", "2025-01-01", none, none⟩]
    [mkPayload ⟨"Ok1", "2025-01-01", none, none⟩]
    [mkPayload ⟨"Later", "2025-01-01", none, none⟩]
    (mkPayload ⟨"Bad", "2025-01-01", none, none⟩)
    (by decide) (by decide) (by decide)

/-! ### Column mapper theorems -/

theorem find_first_helper {α : Type} (f : α → Bool) :
    ∀ (l : List α) (c : α), l.find? f = some c →
      ∃ pre post, l = pre ++ c :: post ∧ f c = true ∧ ∀ x ∈ pre, f x = false
  | [], c, h => by simp [List.find?] at h
  | a :: t, c, h => by
    cases ha : f a with
    | true =>
      rw [List.find?_cons_of_pos _ ha] at h
      injection h with h
      subst h
      exact ⟨[], t, rfl, ha, by simp⟩
    | false =>
      rw [List.find?_cons_of_neg _ (by simp [ha])] at h
      obtain ⟨pre, post, rfl, hfc, hpre⟩ := find_first_helper f t c h
      refine ⟨a :: pre, post, rfl, hfc, ?_⟩
      intro x hx
      rcases List.mem_cons.mp hx with rfl | hx'
      · exact ha
      · exact hpre x hx'

/-- C8 (column mapper modelled from the spec): `map_column` returns none iff
no column's lowercased name contains any hint keyword, and when it returns a
column, that column is the first one matching some keyword — every earlier
column matches no keyword. -/
theorem map_column_first_match (columns hints : List String) :
    (map_column columns hints = none ↔
      ∀ c ∈ columns, ∀ h ∈ hints, strContains (lower c) h = false) ∧
    (∀ c, map_column columns hints = some c →
      c ∈ columns ∧ (∃ h ∈ hints, strContains (lower c) h = true) ∧
      ∃ pre post, columns = pre ++ c :: post ∧
        ∀ c' ∈ pre, ∀ h ∈ hints, strContains (lower c') h = false) := by
  constructor
  · rw [map_column, List.find?_eq_none]
    constructor
    · intro hn c hc h hh
      have h1 := hn c hc
      rw [Bool.not_eq_true, List.any_eq_false] at h1
      exact Bool.eq_false_iff.mpr (h1 h hh)
    · intro hall c hc
      rw [Bool.not_eq_true, List.any_eq_false]
      exact fun h hh => Bool.eq_false_iff.mp (hall c hc h hh)
  · intro c hfind
    rw [map_column] at hfind
    obtain ⟨pre, post, heq, hfc, hpre⟩ := find_first_helper _ columns c hfind
    refine ⟨by rw [heq]; simp, ?_, pre, post, heq, ?_⟩
    · simpa [List.any_eq_true] using hfc
    · intro c' hc' h hh
      have h1 := hpre c' hc'
      rw [List.any_eq_false] at h1
      exact Bool.eq_false_iff.mpr (h1 h hh)

/-- Witness for C8: with hint `"name"`, the first matching column of
`["Worker Name", "Expiry"]` is `"Worker Name"`. -/
theorem map_column_first_match_witness :
    "Worker Name" ∈ ["Worker Name", "Expiry"] ∧
    (∃ h ∈ ["name"], strContains (lower "Worker Name") h = true) ∧
    (∃ pre post, ["Worker Name", "Expiry"] = pre ++ "Worker Name" :: post ∧
      ∀ c' ∈ pre, ∀ h ∈ ["name"], strContains (lower c') h = false) :=
  (map_column_first_match ["Worker Name", "Expiry"] ["name"]).2 "Worker Name" (by decide)

end LegalApp
